import Mathlib

/-!
Verification of the provider-abstraction and streaming-response layer of the
AuditAI financial-assistant repository.

The definitions below are a shallow embedding of the TypeScript source:

* `src/services/geminiService.ts` — the canonical service module (imported by
  the UI components): the OpenAI-compatible caller `callOpenAICompatible` with
  its line-oriented SSE stream decoder, the provider configuration table
  `getProviderConfig`, and the three public operations `analyzeFinancialData`,
  `analyzeReceiptImage`, `sendChatMessage`.
* `src/unnamed/part_000` — the direct-fetch service variant, whose
  `sendChatMessage` contains the brace-balanced stream decoder for the
  primary provider's JSON-array streaming mode.

JavaScript strings are modelled as `List Char`; the JS string methods used by
the source (`trim`, `split("\n")`, `startsWith`, one-occurrence `replace`) are
reimplemented on `List Char` below.  `JSON.parse` is modelled by a fuel-based
recursive-descent parser into an inductive `Json` value; numeric literals are
kept as their character lexeme (no claim depends on numeric values), and
`\uXXXX` escapes are not modelled (no modelled input contains one).
-/

/-- The backtick character (0x60), used by the markdown code-fence patterns. -/
def btick : Char := Char.ofNat 96

/-- The opening-brace character (0x7b), counted by the brace-balanced decoder. -/
def lbrace : Char := Char.ofNat 123

/-- The closing-brace character (0x7d), counted by the brace-balanced decoder. -/
def rbrace : Char := Char.ofNat 125

/-- JS whitespace as used by the source: space, tab, newline, carriage return. -/
def isWsChar (c : Char) : Bool := c = ' ' || c = '\t' || c = '\n' || c = '\r'

/-- Model of `String.prototype.trim`. -/
def jsTrim (cs : List Char) : List Char :=
  ((cs.dropWhile isWsChar).reverse.dropWhile isWsChar).reverse

/-- Model of `chunk.split("\n")` (JS split with a one-character separator). -/
def splitNl : List Char → List (List Char)
  | [] => [[]]
  | c :: cs =>
    if c = '\n' then [] :: splitNl cs
    else
      match splitNl cs with
      | h :: t => (c :: h) :: t
      | [] => [[c]]

/-- Model of `s.startsWith(pat)` (first argument is the pattern). -/
def startsWithL : List Char → List Char → Bool
  | p :: ps, c :: cs => p = c && startsWithL ps cs
  | remaining, _ => remaining.isEmpty

/-- Model of `s.replace(pat, "")` with a plain-string pattern: JS removes only
the first occurrence of `pat`, scanning left to right. -/
def replaceFirstL (pat : List Char) : List Char → List Char
  | [] => []
  | c :: cs =>
    if startsWithL pat (c :: cs) then (c :: cs).drop pat.length
    else c :: replaceFirstL pat cs

/-- JSON values as produced by `JSON.parse`.  String contents and object keys
are kept as `List Char`; a number is kept as its source lexeme. -/
inductive Json where
  | null
  | bool (b : Bool)
  | num (lexeme : List Char)
  | str (s : List Char)
  | arr (elems : List Json)
  | obj (fields : List (List Char × Json))

/-- Decoding of a JSON string escape sequence: the self-representing escapes
quote, backslash and slash, then the named control characters (`\uXXXX` is
not modelled; no modelled input contains one). -/
def escChar (e : Char) : Option Char :=
  if e = '"' ∨ e = '\\' ∨ e = '/' then some e
  else if e = 'n' then some '\n'
  else if e = 't' then some '\t'
  else if e = 'r' then some '\r'
  else if e = 'b' then some (Char.ofNat 8)
  else if e = 'f' then some (Char.ofNat 12)
  else none

/-- Parse the remainder of a JSON string literal (after the opening quote),
returning the decoded contents and the input after the closing quote. -/
def parseStrLit : List Char → Option (List Char × List Char)
  | [] => none
  | c :: rest =>
    if c = '"' then some ([], rest)
    else if c = '\\' then
      match rest with
      | [] => none
      | e :: rest2 =>
        match escChar e with
        | some d =>
          match parseStrLit rest2 with
          | some (s, r) => some (d :: s, r)
          | none => none
        | none => none
    else
      match parseStrLit rest with
      | some (s, r) => some (c :: s, r)
      | none => none

/-- An ASCII decimal digit (code points 48 through 57). -/
def isDigitCh (c : Char) : Bool := 48 ≤ c.toNat && c.toNat ≤ 57

/-- Characters that may occur in a JSON numeric literal.  The numeric grammar
is abstracted as the maximal run of these characters; no claim depends on the
fine structure of number tokens. -/
def isNumCh (c : Char) : Bool :=
  isDigitCh c || c = '-' || c = '+' || c = '.' || c = 'e' || c = 'E'

/-- Lex a JSON numeric literal, keeping the lexeme. -/
def parseNum (cs : List Char) : Option (List Char × List Char) :=
  let lex := cs.takeWhile isNumCh
  if lex = [] then none else some (lex, cs.dropWhile isNumCh)

def skipWs (cs : List Char) : List Char := cs.dropWhile isWsChar

def trueLit : List Char := "true".toList
def falseLit : List Char := "false".toList
def nullLit : List Char := "null".toList

mutual

/-- Fuel-based recursive-descent parser for one JSON value.  The fuel strictly
decreases on every recursive call; `parseJsonL` supplies more fuel than the
input length, which bounds the recursion depth. -/
def parseVal : Nat → List Char → Option (Json × List Char)
  | 0, _ => none
  | fuel + 1, cs =>
    match skipWs cs with
    | [] => none
    | c :: rest =>
      if c = '"' then
        match parseStrLit rest with
        | some (s, r) => some (.str s, r)
        | none => none
      else if c = lbrace then parseObjBody fuel rest
      else if c = '[' then parseArrBody fuel rest
      else if startsWithL trueLit (c :: rest) then some (.bool true, (c :: rest).drop 4)
      else if startsWithL falseLit (c :: rest) then some (.bool false, (c :: rest).drop 5)
      else if startsWithL nullLit (c :: rest) then some (.null, (c :: rest).drop 4)
      else
        match parseNum (c :: rest) with
        | some (lex, r) => some (.num lex, r)
        | none => none

/-- Parse an object body (after the opening brace). -/
def parseObjBody : Nat → List Char → Option (Json × List Char)
  | 0, _ => none
  | fuel + 1, cs =>
    match skipWs cs with
    | [] => none
    | c :: rest =>
      if c = rbrace then some (.obj [], rest)
      else
        match parseMembers fuel (c :: rest) with
        | some (fs, r) => some (.obj fs, r)
        | none => none

/-- Parse a nonempty member list of an object, consuming the closing brace. -/
def parseMembers : Nat → List Char → Option (List (List Char × Json) × List Char)
  | 0, _ => none
  | fuel + 1, cs =>
    match skipWs cs with
    | [] => none
    | c :: rest =>
      if c = '"' then
        match parseStrLit rest with
        | some (key, r1) =>
          match skipWs r1 with
          | ':' :: r2 =>
            match parseVal fuel r2 with
            | some (v, r3) =>
              match skipWs r3 with
              | d :: r4 =>
                if d = ',' then
                  match parseMembers fuel r4 with
                  | some (fs, r5) => some ((key, v) :: fs, r5)
                  | none => none
                else if d = rbrace then some ([(key, v)], r4)
                else none
              | [] => none
            | none => none
          | _ => none
        | none => none
      else none

/-- Parse an array body (after the opening bracket). -/
def parseArrBody : Nat → List Char → Option (Json × List Char)
  | 0, _ => none
  | fuel + 1, cs =>
    match skipWs cs with
    | [] => none
    | c :: rest =>
      if c = ']' then some (.arr [], rest)
      else
        match parseElems fuel (c :: rest) with
        | some (xs, r) => some (.arr xs, r)
        | none => none

/-- Parse a nonempty element list of an array, consuming the closing bracket. -/
def parseElems : Nat → List Char → Option (List Json × List Char)
  | 0, _ => none
  | fuel + 1, cs =>
    match parseVal fuel cs with
    | some (v, r) =>
      match skipWs r with
      | d :: r2 =>
        if d = ',' then
          match parseElems fuel r2 with
          | some (xs, r3) => some (v :: xs, r3)
          | none => none
        else if d = ']' then some ([v], r2)
        else none
      | [] => none
    | none => none

end

/-- Model of `JSON.parse`: parse one value and require only whitespace after
it; any failure corresponds to the thrown `SyntaxError`. -/
def parseJsonL (cs : List Char) : Option Json :=
  match parseVal (cs.length + 2) cs with
  | some (j, r) => if skipWs r = [] then some j else none
  | none => none

/-- Lookup of an object member.  `JSON.parse` keeps the last of duplicate
keys, so the fold keeps the last binding. -/
def jField (j : Json) (key : List Char) : Option Json :=
  match j with
  | .obj fs => fs.foldl (fun acc kv => if kv.1 = key then some kv.2 else acc) none
  | _ => none

/-- Index access on a JSON array (optional chaining `?.[i]`). -/
def jIndex (j : Json) (i : Nat) : Option Json :=
  match j with
  | .arr xs => xs.get? i
  | _ => none

/-- The value at `json.choices?.[0]?.delta?.content` — the optional chaining
of the SSE decoding loop (src/services/geminiService.ts line 122); `none`
models JS `undefined` (any absent link of the chain). -/
def deltaValueOf (j : Json) : Option Json :=
  (((jField j ("choices".toList)).bind (jIndex · 0)).bind
      (jField · ("delta".toList))).bind (jField · ("content".toList))

/-- The value at `json.candidates?.[0]?.content?.parts?.[0]?.text` — the
optional chaining of the brace-balanced decoding loop (src/unnamed/part_000
line 429). -/
def textValueOf (j : Json) : Option Json :=
  (((((jField j ("candidates".toList)).bind (jIndex · 0)).bind
      (jField · ("content".toList))).bind (jField · ("parts".toList))).bind
      (jIndex · 0)).bind (jField · ("text".toList))

/-- Whether a JSON numeric lexeme denotes zero (the JS-falsy numbers 0 and
-0): no nonzero digit occurs before the exponent marker, as in `0`, `-0`,
`0.00`, `0e5`. -/
def numIsZero (lexeme : List Char) : Bool :=
  (lexeme.takeWhile (fun c => !(c = 'e' || c = 'E'))).all
    (fun c => !(isDigitCh c) || c = '0')

/-- JS truthiness of a `JSON.parse` result: `null`, `false`, zero numbers
and the empty string are falsy; every other value — including the empty
array and the empty object — is truthy. -/
def jsTruthy : Json → Bool
  | .null => false
  | .bool b => b
  | .num lexeme => !(numIsZero lexeme)
  | .str s => !(s.isEmpty)
  | .arr _ => true
  | .obj _ => true

mutual

/-- Fuel-based JS string coercion of a JSON value, used for the elements of
an array (`Array.prototype.toString` joins with commas).  The fuel strictly
decreases on every call; the entry point `jsCoerce` supplies a fuel bound
that covers every nesting depth arising in this development (no theorem
depends on the rendering of arrays other than the string and shallow-array
cases).  Numbers are rendered as their lexeme — an abstraction of JS number
formatting consistent with `Json.num` keeping the lexeme. -/
def jsToStringF : Nat → Json → List Char
  | 0, _ => []
  | fuel + 1, j =>
    match j with
    | .str s => s
    | .num lexeme => lexeme
    | .bool b => if b then "true".toList else "false".toList
    | .null => "null".toList
    | .obj _ => "[object Object]".toList
    | .arr xs => jsJoinF fuel xs

/-- Join array elements with commas, as `Array.prototype.toString` does. -/
def jsJoinF : Nat → List Json → List Char
  | 0, _ => []
  | _ + 1, [] => []
  | fuel + 1, [x] => jsElemF fuel x
  | fuel + 1, x :: xs => jsElemF fuel x ++ ',' :: jsJoinF fuel xs

/-- One joined element: `null` (and `undefined`) render as the empty string
inside a join; every other value renders as its string coercion. -/
def jsElemF : Nat → Json → List Char
  | 0, _ => []
  | _ + 1, .null => []
  | fuel + 1, j => jsToStringF fuel j

end

/-- JS `String(v)` for a `JSON.parse` value, as applied by the source's
`accumulatedText += v`: strings pass through unchanged (definitionally, for
any fuel), numbers keep their lexeme, booleans/null their literal names,
objects render as `[object Object]`, and arrays join their elements with
commas (so the truthy empty array coerces to the empty string).  The fuel
only bounds the recursion into nested arrays; callers pass a bound derived
from the parsed text's length, which always exceeds the value's size. -/
def jsCoerceWith (fuel : Nat) : Json → List Char
  | .str s => s
  | .num lexeme => lexeme
  | .bool b => if b then "true".toList else "false".toList
  | .null => "null".toList
  | .obj _ => "[object Object]".toList
  | .arr xs => jsJoinF fuel xs

/-- The SSE data marker stripped from each line (geminiService.ts line 118). -/
def dataMarker : List Char := "data: ".toList

/-- The SSE terminator line skipped by the decoder (geminiService.ts line 116). -/
def doneMarker : List Char := "data: [DONE]".toList

/-- Transient decoder state of a streaming call: the accumulating text
buffer `acc` and the list `calls` of sink (`onChunk`) invocation arguments in
order.  Shared by both decoding modes. -/
structure DecSt where
  acc : List Char
  calls : List (List Char)
deriving DecidableEq

/-- The emission a single SSE line causes, following the loop body of
`callOpenAICompatible` (geminiService.ts lines 114-131): trim the line, skip
blank lines and the `[DONE]` terminator, require the `data: ` marker, strip
its first occurrence, `JSON.parse` the remainder (a parse failure is caught
and swallowed), and read the delta-content path.  The source's
`const deltaContent = ...content || ""` followed by `if (deltaContent)` is a
JS truthiness test: the branch is entered exactly when the path holds a
truthy value (`|| ""` only turns an absent or falsy value into the skipped
`""`), and `accumulatedText += deltaContent` then appends the value's string
coercion — which for a truthy non-string such as `[]` can be empty.  `some d`
means the branch is entered with coerced text `d`; `none` means no append
and no sink call. -/
def lineEmission (line : List Char) : Option (List Char) :=
  let trimmedLine := jsTrim line
  if trimmedLine = [] ∨ trimmedLine = doneMarker then none
  else if startsWithL dataMarker trimmedLine then
    match parseJsonL (replaceFirstL dataMarker trimmedLine) with
    | some json =>
      match deltaValueOf json with
      | some v => if jsTruthy v then some (jsCoerceWith (3 * line.length + 3) v) else none
      | none => none
    | none => none
  else none

/-- Processing of one SSE line (geminiService.ts lines 122-126): on a truthy
delta value, `accumulatedText += deltaContent` and `onChunk(accumulatedText)`
— the sink always receives the full accumulator. -/
def sseLine (st : DecSt) (line : List Char) : DecSt :=
  match lineEmission line with
  | some deltaContent =>
    { acc := st.acc ++ deltaContent, calls := st.calls ++ [st.acc ++ deltaContent] }
  | none => st

/-- Processing of one decoded transport chunk (geminiService.ts lines
111-131): split on newlines and run the line loop. -/
def sseChunk (st : DecSt) (chunk : List Char) : DecSt :=
  (splitNl chunk).foldl sseLine st

def sseInit : DecSt := ⟨[], []⟩

/-- The whole SSE streaming loop of `callOpenAICompatible` over the sequence
of decoded transport chunks (geminiService.ts lines 107-132). -/
def sseRun (chunks : List (List Char)) : DecSt :=
  chunks.foldl sseChunk sseInit

/-- `return accumulatedText` at end of stream (geminiService.ts line 133):
the SSE mode returns the accumulator as is, even when it is empty. -/
def sseReturn (chunks : List (List Char)) : List Char :=
  (sseRun chunks).acc

/-- The SSE line loop run over an explicit list of lines (used to state
line-insertion properties; `sseRun` is the chunk-level wrapper). -/
def sseRunLines (lines : List (List Char)) : DecSt :=
  lines.foldl sseLine sseInit

/-- Brace-balanced decoder state of `sendChatMessage` (src/unnamed/part_000
lines 369-442): the cumulative `buffer` (never trimmed by the source), the
text accumulator and the sink invocation arguments. -/
structure BraceSt where
  buffer : List Char
  acc : List Char
  calls : List (List Char)
deriving DecidableEq

/-- One step of the brace-counting scan (part_000 lines 415-439): `depth` is
`bracketCount`, `cur = some o` models `startIndex ≠ -1` with `o` the buffer
substring from `startIndex` through the current character, and the third
component collects the completed object substrings in order. -/
def scanStep (s : Int × Option (List Char) × List (List Char)) (c : Char) :
    Int × Option (List Char) × List (List Char) :=
  let depth := s.1
  let cur := s.2.1
  let out := s.2.2
  if c = lbrace then
    (depth + 1, if depth = 0 then some [c] else cur.map (fun o => o ++ [c]), out)
  else if c = rbrace then
    if depth - 1 = 0 then
      match cur with
      | some o => (depth - 1, none, out ++ [o ++ [c]])
      | none => (depth - 1, none, out)
    else (depth - 1, cur.map (fun o => o ++ [c]), out)
  else (depth, cur.map (fun o => o ++ [c]), out)

/-- All complete top-level objects found by scanning the buffer character by
character (part_000 lines 415-440). -/
def scanObjs (buf : List Char) : List (List Char) :=
  (buf.foldl scanStep (0, none, [])).2.2

/-- The emission a completed object substring causes (part_000 lines
427-436): `JSON.parse` it (a failure is caught and ignored), read the
candidates text path, and test `if (text)` — JS truthiness again, entered
exactly for a truthy value, whose string coercion (possibly empty for a
truthy non-string such as `[]`) is appended. -/
def objEmission (o : List Char) : Option (List Char) :=
  match parseJsonL o with
  | some json =>
    match textValueOf json with
    | some v => if jsTruthy v then some (jsCoerceWith (3 * o.length + 3) v) else none
    | none => none
  | none => none

/-- Processing of one completed object (part_000 lines 428-433): on a truthy
text value, `accumulatedText += text` and `onChunk(accumulatedText)`. -/
def processObj (st : BraceSt) (o : List Char) : BraceSt :=
  match objEmission o with
  | some text =>
    { st with acc := st.acc ++ text, calls := st.calls ++ [st.acc ++ text] }
  | none => st

/-- Processing of one transport chunk (part_000 lines 375-442): append the
chunk to the cumulative buffer, then rescan the WHOLE buffer for complete
objects and process each — the source never trims the buffer (its comment:
"Ideally we trim the buffer, but for short chats, keeping it is ok-ish"). -/
def braceChunk (st : BraceSt) (chunk : List Char) : BraceSt :=
  let buffer := st.buffer ++ chunk
  (scanObjs buffer).foldl processObj { st with buffer := buffer }

def braceInit : BraceSt := ⟨[], [], []⟩

/-- The whole brace-balanced streaming loop of `sendChatMessage` over the
sequence of decoded transport chunks (part_000 lines 375-442). -/
def braceRun (chunks : List (List Char)) : BraceSt :=
  chunks.foldl braceChunk braceInit

/-- `return accumulatedText || " "` at end of stream (part_000 line 449):
a single space is substituted when nothing was ever decoded. -/
def braceReturn (chunks : List (List Char)) : List Char :=
  if (braceRun chunks).acc = [] then [' '] else (braceRun chunks).acc

/-- The markdown code fence `` ``` ``. -/
def fence : List Char := [btick, btick, btick]

/-- The pattern `` \n``` `` (second regex alternative with its optional
leading newline present). -/
def nlFence : List Char := '\n' :: fence

/-- The pattern `` ```json ``. -/
def fenceJson : List Char := fence ++ ['j', 's', 'o', 'n']

/-- The pattern `` ```json\n `` (first regex alternative with its optional
trailing newline present). -/
def fenceJsonNl : List Char := fenceJson ++ ['\n']

/-- One pass of the global regex replace
`resultText.replace(/```json\n?|```|\n?```/g, '')` — precisely, of the
source's `/```json\n?|\n?```/g` (geminiService.ts line 233): at each
position the first alternative `` ```json `` with an optional greedy newline
is tried, then the second `` ``` `` with an optional greedy leading newline;
a match is deleted and scanning resumes after it, otherwise one character is
kept.  Fuel-based so that the definition computes; every step consumes fuel. -/
def sfAux : Nat → List Char → List Char
  | 0, cs => cs
  | fuel + 1, cs =>
    if startsWithL fenceJsonNl cs then sfAux fuel (cs.drop 8)
    else if startsWithL fenceJson cs then sfAux fuel (cs.drop 7)
    else if startsWithL nlFence cs then sfAux fuel (cs.drop 4)
    else if startsWithL fence cs then sfAux fuel (cs.drop 3)
    else
      match cs with
      | [] => []
      | c :: rest => c :: sfAux fuel rest

/-- `resultText.replace(/```json\n?|\n?```/g, '')` — the markdown code-fence
cleanup of `analyzeFinancialData` (geminiService.ts line 233). -/
def stripFences (cs : List Char) : List Char := sfAux (cs.length + 1) cs

/-- Whether `` ``` `` occurs as a contiguous substring. -/
def containsTriple : List Char → Bool
  | [] => false
  | c :: cs => startsWithL fence (c :: cs) || containsTriple cs

/-- A provider response wrapped in a markdown code fence, as in the spec's
round-trip example: `` ```json\n<body>\n``` ``. -/
def fenceWrap (cs : List Char) : List Char := fenceJsonNl ++ cs ++ nlFence

/-- The environment-sourced secrets consumed at module load
(geminiService.ts lines 5-9 and 156); an unset variable is the empty
string. -/
structure EnvKeys where
  API_KEY : String
  DEEPSEEK_API_KEY : String
  OPENAI_API_KEY : String
  DASHSCOPE_API_KEY : String
  OPENAI_BASE_URL : String
deriving DecidableEq

/-- `const apiKey = process.env.API_KEY || 'MISSING_API_KEY'`
(geminiService.ts line 6): the primary provider's key silently defaults to a
placeholder instead of staying empty. -/
def apiKeyOf (env : EnvKeys) : String :=
  if env.API_KEY = "" then "MISSING_API_KEY" else env.API_KEY

/-- The closed provider enum (src `ModelProvider` type). -/
inductive ModelProvider where
  | gemini
  | deepseek
  | gpt
  | qwen
deriving DecidableEq

/-- Connection config for an OpenAI-compatible provider
(geminiService.ts lines 53-59). -/
structure OpenAIConfig where
  apiKey : String
  baseUrl : String
  model : String
  providerName : String
  jsonMode : Bool
deriving DecidableEq

/-- `getProviderConfig` (geminiService.ts lines 143-176): static connection
config per OpenAI-compatible provider; `none` for the primary provider.  The
gpt base URL takes `OPENAI_BASE_URL` when set, else the browser rewrite path
(the source's in-browser branch). -/
def getProviderConfig (env : EnvKeys) (provider : ModelProvider) (jsonMode : Bool) :
    Option OpenAIConfig :=
  match provider with
  | .deepseek =>
    some { apiKey := env.DEEPSEEK_API_KEY,
           baseUrl := "https://api.deepseek.com/chat/completions",
           model := "deepseek-chat", providerName := "DeepSeek", jsonMode := jsonMode }
  | .gpt =>
    some { apiKey := env.OPENAI_API_KEY,
           baseUrl := if env.OPENAI_BASE_URL = "" then "/openai-api/v1/chat/completions"
                      else env.OPENAI_BASE_URL,
           model := "gpt-4o", providerName := "OpenAI (GPT-4o)", jsonMode := jsonMode }
  | .qwen =>
    some { apiKey := env.DASHSCOPE_API_KEY,
           baseUrl := "https://dashscope.aliyuncs.com/compatible-mode/v1/chat/completions",
           model := "qwen-max", providerName := "Qwen (DashScope)", jsonMode := jsonMode }
  | .gemini => none

/-- The first externally visible action of a call with respect to the
network: either an error thrown before any request, or an outbound request. -/
inductive FirstAction where
  | throwKeyMissing (message : String)
  | httpRequest
deriving DecidableEq

/-- The credential gate at the top of `callOpenAICompatible`
(geminiService.ts lines 67-69): an empty key throws before `fetch` is ever
reached; otherwise the request is issued (line 87). -/
def callOpenAICompatibleGate (config : OpenAIConfig) : FirstAction :=
  if config.apiKey = "" then
    .throwKeyMissing (config.providerName ++
      " API Key is missing. Please check your environment variables.")
  else .httpRequest

/-- First network-relevant action of `analyzeFinancialData`
(geminiService.ts lines 224-239 and 287-296): an OpenAI-compatible provider
goes through the credential gate; the primary provider invokes the SDK
network call `ai.models.generateContent` with no key check at all. -/
def analyzeFinancialDataFirstAction (env : EnvKeys) (provider : ModelProvider) :
    FirstAction :=
  match getProviderConfig env provider true with
  | some config => callOpenAICompatibleGate config
  | none => .httpRequest

/-- First network-relevant action of `sendChatMessage`
(geminiService.ts lines 422-436 and 444-469): same shape, with the primary
provider invoking `chat.sendMessage`/`sendMessageStream` with no key check. -/
def sendChatMessageFirstAction (env : EnvKeys) (provider : ModelProvider) :
    FirstAction :=
  match getProviderConfig env provider false with
  | some config => callOpenAICompatibleGate config
  | none => .httpRequest

/-- First network-relevant action of `analyzeReceiptImage`
(geminiService.ts lines 342-381): only gpt and qwen take the
OpenAI-compatible vision path (qwen's model is swapped to `qwen-vl-max`);
every other provider — including deepseek — falls through to the primary
provider's SDK network call with no key check. -/
def analyzeReceiptImageFirstAction (env : EnvKeys) (provider : ModelProvider) :
    FirstAction :=
  if provider = .gpt ∨ provider = .qwen then
    match getProviderConfig env provider false with
    | some config =>
      callOpenAICompatibleGate
        { config with model := if provider = .qwen then "qwen-vl-max" else config.model }
    | none => .httpRequest
  else .httpRequest

/-- The note prepended when a deepseek document request is redirected to the
primary provider (geminiService.ts lines 367-369). -/
def deepseekNote : String :=
  "**Note:** DeepSeek text model does not support image/document analysis. Switching to Gemini 3 Flash.\n\n"

/-- Where `analyzeReceiptImage` routes a document-analysis request
(geminiService.ts lines 342-381). -/
inductive ReceiptRoute where
  | visionCall (config : OpenAIConfig)
  | keyMissing (message : String)
  | geminiFallback (note : String)
deriving DecidableEq

/-- The routing decision of `analyzeReceiptImage` (geminiService.ts lines
342-371): gpt/qwen go to the OpenAI-compatible vision call (subject to the
credential gate); every other provider proceeds to the primary provider's
network call, with the explanatory note prefixed exactly for deepseek.  No
branch raises a configuration error for a provider without vision support. -/
def analyzeReceiptImageRoute (env : EnvKeys) (provider : ModelProvider) : ReceiptRoute :=
  match (if provider = .gpt ∨ provider = .qwen
         then getProviderConfig env provider false else none) with
  | some config0 =>
    let config := { config0 with model := if provider = .qwen then "qwen-vl-max" else config0.model }
    if config.apiKey = "" then
      .keyMissing (config.providerName ++
        " API Key is missing. Please check your environment variables.")
    else .visionCall config
  | none =>
    .geminiFallback (if provider = .deepseek then deepseekNote else "")

/-- The error taxonomy of the specification's classifier (spec section 4.5). -/
inductive ErrorKind where
  | credentialRevoked
  | modelUnreachable
  | providerError
deriving DecidableEq

/-- A classified failed-response error: a kind and a user-facing message. -/
structure ClassifiedError where
  kind : ErrorKind
  message : String
deriving DecidableEq

/-- Classification of a non-2xx HTTP response by the source
(geminiService.ts lines 96-99): the only handling is the single unconditional
`throw new Error(providerName + " API Error: " + status + " - " + errorText)`.
There is no status- or body-dependent branch anywhere in the module, so every
failed response receives the taxonomy's generic kind (the spec's own default,
`ProviderError`) with that one message shape. -/
def classifyFailedResponse (providerName : String) (status : Nat) (body : String) :
    ClassifiedError :=
  { kind := .providerError,
    message := providerName ++ " API Error: " ++ toString status ++ " - " ++ body }

/-- Whether `pat` occurs as a contiguous substring of `cs`. -/
def containsSub (pat : List Char) : List Char → Bool
  | [] => pat = []
  | c :: cs => startsWithL pat (c :: cs) || containsSub pat cs

/-- Modelled from the spec (section 4.5 `ErrorClassifier`, a component that
does not exist in the source): status 400 or 403 whose detail contains
case-insensitive "leaked" or the phrase "API key not valid" gives
`CredentialRevoked`; status 404 gives `ModelUnreachable`; everything else the
generic provider error.  Stated only to compare with the source behaviour. -/
def classifySpec (providerName : String) (status : Nat) (detail : String) :
    ClassifiedError :=
  if (status = 400 ∨ status = 403) ∧
      (containsSub ("leaked".toList) (detail.toList.map Char.toLower) ∨
       containsSub ("API key not valid".toList) detail.toList) then
    { kind := .credentialRevoked, message := detail }
  else if status = 404 then
    { kind := .modelUnreachable, message := detail }
  else
    { kind := .providerError,
      message := providerName ++ " API Error: " ++ detail }

/-- Outcome of `analyzeFinancialData`'s OpenAI-compatible branch as a
function of the provider call's outcome (geminiService.ts lines 226-238):
the `catch` block rethrows (`throw error`), so a failed call propagates; a
successful call has its markdown fences stripped and is `JSON.parse`d (whose
`SyntaxError` is rethrown by the same catch). -/
def analyzeFinancialDataOutcome (callResult : Except String String) :
    Except String Json :=
  match callResult with
  | .error e => .error e
  | .ok resultText =>
    match parseJsonL (stripFences resultText.toList) with
    | some j => .ok j
    | none => .error "SyntaxError: unexpected token in JSON"

/-- Outcome of `analyzeReceiptImage`'s vision branch as a function of the
provider call's outcome (geminiService.ts lines 347-362): the `catch` block
rethrows, so failures propagate and successes pass through unchanged. -/
def analyzeReceiptImageOutcome (callResult : Except String String) :
    Except String String :=
  match callResult with
  | .error e => .error e
  | .ok text => .ok text

/-- Outcome of `sendChatMessage`'s OpenAI-compatible branch as a function of
the provider call's outcome (geminiService.ts lines 430-435): the `catch`
block does NOT rethrow — it returns the substitute apology text, so the call
completes successfully even when the provider call failed.  (The primary
provider branch, lines 470-473, does the same with "... connecting to the
service.".) -/
def sendChatMessageOutcome (providerName : String) (callResult : Except String String) :
    Except String String :=
  match callResult with
  | .ok t => .ok t
  | .error _ => .ok ("Sorry, I encountered an error connecting to " ++ providerName ++ ".")

/-! Helper notions used only to state and prove properties of the decoders. -/

/-- Appending one emitted delta: the accumulator grows and the sink receives
the new full accumulator (the common emission shape of both decoders). -/
def emitOne (st : DecSt) (d : List Char) : DecSt :=
  ⟨st.acc ++ d, st.calls ++ [st.acc ++ d]⟩

/-- Folding `emitOne` over a list of deltas. -/
def emitAll (st : DecSt) (ds : List (List Char)) : DecSt :=
  ds.foldl emitOne st

/-- The partial concatenations of a delta list on top of a base accumulator:
`accCalls a [d1, d2, ...] = [a ++ d1, a ++ d1 ++ d2, ...]` — the n-th entry
is the base followed by the first n deltas. -/
def accCalls : List Char → List (List Char) → List (List Char)
  | _, [] => []
  | a, d :: ds => (a ++ d) :: accCalls (a ++ d) ds

/-- The (zero or one) delta a single SSE line emits. -/
def lineEmits (line : List Char) : List (List Char) :=
  (lineEmission line).toList

/-- All deltas emitted by the SSE decoder over a chunk sequence, in order. -/
def sseDeltas (chunks : List (List Char)) : List (List Char) :=
  (((chunks.map splitNl).flatten).map lineEmits).flatten

/-- The (zero or one) delta a completed object substring emits. -/
def objEmits (o : List Char) : List (List Char) :=
  (objEmission o).toList

/-- The delta-path value a single SSE line exposes after the line guards and
`JSON.parse` (`none` when the line is skipped, unparseable, or the path is
absent); `lineEmission` emits exactly on the truthy such values. -/
def lineContentValue (line : List Char) : Option Json :=
  let trimmedLine := jsTrim line
  if trimmedLine = [] ∨ trimmedLine = doneMarker then none
  else if startsWithL dataMarker trimmedLine then
    match parseJsonL (replaceFirstL dataMarker trimmedLine) with
    | some json => deltaValueOf json
    | none => none
  else none

/-- The text-path value a completed object substring exposes after
`JSON.parse` (`none` when unparseable or absent). -/
def objTextValue (o : List Char) : Option Json :=
  match parseJsonL o with
  | some json => textValueOf json
  | none => none

/-- Whether an optionally present value is absent or a string — the only
shapes the providers' streams put at the delta/text path.  A truthy
non-string there makes the source append a possibly empty coercion. -/
def isStrOrAbsent : Option Json → Bool
  | none => true
  | some (.str _) => true
  | some _ => false

/-- All object substrings the brace-balanced decoder scans over a chunk
sequence starting from buffer `buf`: each chunk's whole grown buffer is
rescanned. -/
def braceObjs : List Char → List (List Char) → List (List Char)
  | _, [] => []
  | buf, c :: cs => scanObjs (buf ++ c) ++ braceObjs (buf ++ c) cs

/-- All deltas emitted by the brace-balanced decoder over a chunk sequence
when the buffer already holds `buf`: each arriving chunk causes the whole
grown buffer to be rescanned and every complete object in it processed. -/
def braceDeltas : List Char → List (List Char) → List (List Char)
  | _, [] => []
  | buf, c :: cs =>
    (((scanObjs (buf ++ c)).map objEmits).flatten) ++ braceDeltas (buf ++ c) cs

/-- `x` strictly extends `p`: `p` is a proper prefix of `x`. -/
def StrictExtends (p x : List Char) : Prop := ∃ t, t ≠ [] ∧ x = p ++ t

/-- Each list entry strictly extends its predecessor (the first strictly
extends the given base). -/
def StrictChain : List Char → List (List Char) → Prop
  | _, [] => True
  | p, x :: xs => StrictExtends p x ∧ StrictChain x xs

/-! Concrete inputs used by the claims' examples (braces written with hex
escapes). -/

/-- SSE data line carrying delta "Hel". -/
def sseLineHel : List Char :=
  "data: \x7b\"choices\":[\x7b\"delta\":\x7b\"content\":\"Hel\"\x7d\x7d]\x7d".toList

/-- SSE data line carrying delta "lo". -/
def sseLineLo : List Char :=
  "data: \x7b\"choices\":[\x7b\"delta\":\x7b\"content\":\"lo\"\x7d\x7d]\x7d".toList

/-- SSE chunk carrying delta "Hel". -/
def sseChunk1 : List Char := sseLineHel ++ ['\n']

/-- SSE chunk carrying delta "lo". -/
def sseChunk2 : List Char := sseLineLo ++ ['\n']

/-- SSE terminator chunk. -/
def sseChunk3 : List Char := "data: [DONE]\n".toList

/-- An SSE data line whose payload is not parseable JSON. -/
def sseBadLine : List Char := "data: \x7bmalformed".toList

/-- First half of the spec's two-object brace-balanced buffer: the opening
bracket and the complete first object (text "A"). -/
def braceChunkA : List Char :=
  "[\x7b\"candidates\":[\x7b\"content\":\x7b\"parts\":[\x7b\"text\":\"A\"\x7d]\x7d\x7d]\x7d".toList

/-- Second half: the separating comma, the second object (text "B") and the
closing bracket. -/
def braceChunkB : List Char :=
  ",\x7b\"candidates\":[\x7b\"content\":\x7b\"parts\":[\x7b\"text\":\"B\"\x7d]\x7d\x7d]\x7d]".toList

/-- A well-formed SSE data line whose delta-content value is the truthy
empty array: the source enters the append branch, appends its coercion ""
and invokes the sink with an unchanged accumulator. -/
def sseTruthyEmptyChunk : List Char :=
  "data: \x7b\"choices\":[\x7b\"delta\":\x7b\"content\":[]\x7d\x7d]\x7d\n".toList

/-- A complete object whose text value is the truthy empty array, the
brace-balanced analogue. -/
def braceTruthyEmptyChunk : List Char :=
  "\x7b\"candidates\":[\x7b\"content\":\x7b\"parts\":[\x7b\"text\":[]\x7d]\x7d\x7d]\x7d".toList

/-- The provider response of the spec's round-trip example. -/
def fencedAuditResponse : String :=
  "```json\n\x7b\"summary\":\"s\",\"risks\":[],\"keyMetrics\":[]\x7d\n```"

/-- The environment secret a provider's OpenAI-compatible config reads
(geminiService.ts lines 7-9); for the primary provider, the raw `API_KEY`
variable before the placeholder default of line 6 is applied. -/
def providerKey (env : EnvKeys) : ModelProvider → String
  | .gemini => env.API_KEY
  | .deepseek => env.DEEPSEEK_API_KEY
  | .gpt => env.OPENAI_API_KEY
  | .qwen => env.DASHSCOPE_API_KEY

/-- The display name interpolated into provider error messages
(geminiService.ts lines 151, 161, 170). -/
def providerDisplayName : ModelProvider → String
  | .gemini => "Gemini"
  | .deepseek => "DeepSeek"
  | .gpt => "OpenAI (GPT-4o)"
  | .qwen => "Qwen (DashScope)"

/-- An environment with every secret set. -/
def envAll : EnvKeys := ⟨"gk", "dk", "ok", "qk", ""⟩

/-- An environment with no Gemini key and all other secrets set. -/
def envNoGemini : EnvKeys := ⟨"", "dk", "ok", "qk", ""⟩

/-- An environment with a Gemini key and no other secrets. -/
def envOnlyGemini : EnvKeys := ⟨"gk", "", "", "", ""⟩

/-! Characterization lemmas for the two decoders. -/

theorem emitAll_append (st : DecSt) (xs ys : List (List Char)) :
    emitAll st (xs ++ ys) = emitAll (emitAll st xs) ys := by
  simp [emitAll, List.foldl_append]

theorem emitAll_eq (ds : List (List Char)) (st : DecSt) :
    emitAll st ds = ⟨st.acc ++ ds.flatten, st.calls ++ accCalls st.acc ds⟩ := by
  induction ds generalizing st with
  | nil => simp [emitAll, accCalls]
  | cons d ds ih =>
    show emitAll (emitOne st d) ds = _
    rw [ih (emitOne st d)]
    simp [emitOne, accCalls, List.append_assoc]

theorem sseLine_eq (st : DecSt) (line : List Char) :
    sseLine st line = emitAll st (lineEmits line) := by
  unfold sseLine lineEmits
  cases lineEmission line with
  | none => simp [emitAll]
  | some d => simp [emitAll, emitOne, Option.toList]

theorem foldl_sseLine_eq (lines : List (List Char)) (st : DecSt) :
    lines.foldl sseLine st = emitAll st ((lines.map lineEmits).flatten) := by
  induction lines generalizing st with
  | nil => simp [emitAll]
  | cons l ls ih =>
    simp only [List.foldl_cons, List.map_cons, List.flatten_cons]
    rw [ih (sseLine st l), sseLine_eq, emitAll_append]

theorem foldl_sseChunk_eq (chunks : List (List Char)) (st : DecSt) :
    chunks.foldl sseChunk st =
      emitAll st ((((chunks.map splitNl).flatten).map lineEmits).flatten) := by
  induction chunks generalizing st with
  | nil => simp [emitAll]
  | cons c cs ih =>
    simp only [List.foldl_cons, List.map_cons, List.flatten_cons, List.map_append,
      List.flatten_append]
    rw [ih (sseChunk st c), show sseChunk st c = (splitNl c).foldl sseLine st from rfl,
      foldl_sseLine_eq, emitAll_append]

theorem sseRun_eq (chunks : List (List Char)) :
    sseRun chunks = emitAll sseInit (sseDeltas chunks) := by
  rw [show sseRun chunks = chunks.foldl sseChunk sseInit from rfl, foldl_sseChunk_eq]
  rfl

theorem sseRun_calls (chunks : List (List Char)) :
    (sseRun chunks).calls = accCalls [] (sseDeltas chunks) := by
  rw [sseRun_eq, emitAll_eq]
  simp [sseInit]

theorem sseRun_acc (chunks : List (List Char)) :
    (sseRun chunks).acc = (sseDeltas chunks).flatten := by
  rw [sseRun_eq, emitAll_eq]
  simp [sseInit]

theorem processObj_eq (st : BraceSt) (o : List Char) :
    processObj st o = ⟨st.buffer, (emitAll ⟨st.acc, st.calls⟩ (objEmits o)).acc,
                       (emitAll ⟨st.acc, st.calls⟩ (objEmits o)).calls⟩ := by
  unfold processObj objEmits
  cases objEmission o with
  | none => simp [emitAll]
  | some d => simp [emitAll, emitOne, Option.toList]

theorem foldl_processObj_eq (objs : List (List Char)) (st : BraceSt) :
    objs.foldl processObj st =
      ⟨st.buffer, (emitAll ⟨st.acc, st.calls⟩ ((objs.map objEmits).flatten)).acc,
                  (emitAll ⟨st.acc, st.calls⟩ ((objs.map objEmits).flatten)).calls⟩ := by
  induction objs generalizing st with
  | nil => simp [emitAll]
  | cons o os ih =>
    simp only [List.foldl_cons, List.map_cons, List.flatten_cons]
    rw [ih (processObj st o), processObj_eq, emitAll_append]

theorem foldl_braceChunk_eq (chunks : List (List Char)) (st : BraceSt) :
    chunks.foldl braceChunk st =
      ⟨st.buffer ++ chunks.flatten,
       (emitAll ⟨st.acc, st.calls⟩ (braceDeltas st.buffer chunks)).acc,
       (emitAll ⟨st.acc, st.calls⟩ (braceDeltas st.buffer chunks)).calls⟩ := by
  induction chunks generalizing st with
  | nil => simp [braceDeltas, emitAll]
  | cons c cs ih =>
    simp only [List.foldl_cons, List.flatten_cons, braceDeltas]
    rw [ih (braceChunk st c),
      show braceChunk st c =
        (scanObjs (st.buffer ++ c)).foldl processObj { st with buffer := st.buffer ++ c }
        from rfl,
      foldl_processObj_eq, emitAll_append]
    simp [List.append_assoc]

theorem braceRun_acc (chunks : List (List Char)) :
    (braceRun chunks).acc = (braceDeltas [] chunks).flatten := by
  rw [show braceRun chunks = chunks.foldl braceChunk braceInit from rfl,
    foldl_braceChunk_eq, emitAll_eq]
  simp [braceInit]

theorem braceRun_calls (chunks : List (List Char)) :
    (braceRun chunks).calls = accCalls [] (braceDeltas [] chunks) := by
  rw [show braceRun chunks = chunks.foldl braceChunk braceInit from rfl,
    foldl_braceChunk_eq, emitAll_eq]
  simp [braceInit]

theorem strictChain_accCalls (ds : List (List Char)) (base : List Char)
    (h : ∀ d ∈ ds, d ≠ []) : StrictChain base (accCalls base ds) := by
  induction ds generalizing base with
  | nil => trivial
  | cons d ds ih =>
    refine ⟨⟨d, h d (by simp), rfl⟩, ih (base ++ d) ?_⟩
    intro x hx
    exact h x (by simp [hx])

theorem mem_accCalls_ne_nil (ds : List (List Char)) (base : List Char)
    (h : ∀ d ∈ ds, d ≠ []) : ∀ x ∈ accCalls base ds, x ≠ [] := by
  induction ds generalizing base with
  | nil => simp [accCalls]
  | cons d ds ih =>
    simp only [accCalls, List.mem_cons]
    rintro x (rfl | hx)
    · intro hx0
      exact h d (by simp) (List.append_eq_nil.mp hx0).2
    · exact ih (base ++ d) (fun y hy => h y (by simp [hy])) x hx

theorem lineEmission_eq_value (line : List Char) :
    lineEmission line =
      match lineContentValue line with
      | some v => if jsTruthy v then some (jsCoerceWith (3 * line.length + 3) v) else none
      | none => none := by
  simp only [lineEmission, lineContentValue]
  split
  · rfl
  · split
    · cases parseJsonL (replaceFirstL dataMarker (jsTrim line)) with
      | none => rfl
      | some json => rfl
    · rfl

theorem objEmission_eq_value (o : List Char) :
    objEmission o =
      match objTextValue o with
      | some v => if jsTruthy v then some (jsCoerceWith (3 * o.length + 3) v) else none
      | none => none := by
  simp only [objEmission, objTextValue]
  cases parseJsonL o with
  | none => rfl
  | some json => rfl

theorem emission_ne_nil_of_str (fuel : Nat) (v0 : Option Json)
    (hv : isStrOrAbsent v0 = true) :
    ∀ d ∈ (match v0 with
            | some v => if jsTruthy v then some (jsCoerceWith fuel v) else none
            | none => (none : Option (List Char))).toList, d ≠ [] := by
  intro d hd
  cases v0 with
  | none => simp at hd
  | some v =>
    cases v with
    | str s =>
      by_cases hs : jsTruthy (Json.str s) = true
      · simp only [hs, if_true, Option.toList, List.mem_singleton] at hd
        subst hd
        intro h0
        rw [h0] at hs
        simp [jsTruthy] at hs
      · simp only [hs, if_false, Option.toList] at hd
        simp at hd
    | null => simp [isStrOrAbsent] at hv
    | bool b => simp [isStrOrAbsent] at hv
    | num l => simp [isStrOrAbsent] at hv
    | arr xs => simp [isStrOrAbsent] at hv
    | obj fs => simp [isStrOrAbsent] at hv

theorem mem_lineEmits_ne_nil_of_str (line : List Char)
    (hv : isStrOrAbsent (lineContentValue line) = true) :
    ∀ d ∈ lineEmits line, d ≠ [] := by
  intro d hd
  unfold lineEmits at hd
  rw [lineEmission_eq_value] at hd
  exact emission_ne_nil_of_str _ _ hv d hd

theorem mem_objEmits_ne_nil_of_str (o : List Char)
    (hv : isStrOrAbsent (objTextValue o) = true) :
    ∀ d ∈ objEmits o, d ≠ [] := by
  intro d hd
  unfold objEmits at hd
  rw [objEmission_eq_value] at hd
  exact emission_ne_nil_of_str _ _ hv d hd

theorem mem_sseDeltas_ne_nil_of_str (chunks : List (List Char))
    (hs : ∀ line ∈ (chunks.map splitNl).flatten,
      isStrOrAbsent (lineContentValue line) = true) :
    ∀ d ∈ sseDeltas chunks, d ≠ [] := by
  intro d hd
  unfold sseDeltas at hd
  rw [List.mem_flatten] at hd
  rcases hd with ⟨l, hl, hd⟩
  rw [List.mem_map] at hl
  rcases hl with ⟨line, hline, rfl⟩
  exact mem_lineEmits_ne_nil_of_str line (hs line hline) d hd

theorem mem_braceDeltas_exists_obj (chunks : List (List Char)) (buf : List Char) :
    ∀ d ∈ braceDeltas buf chunks, ∃ o, o ∈ braceObjs buf chunks ∧ d ∈ objEmits o := by
  induction chunks generalizing buf with
  | nil => simp [braceDeltas]
  | cons c cs ih =>
    intro d hd
    simp only [braceDeltas, List.mem_append] at hd
    rcases hd with hd | hd
    · rw [List.mem_flatten] at hd
      rcases hd with ⟨l, hl, hd⟩
      rw [List.mem_map] at hl
      rcases hl with ⟨o, ho, rfl⟩
      exact ⟨o, List.mem_append.mpr (Or.inl ho), hd⟩
    · rcases ih (buf ++ c) d hd with ⟨o, ho, hmem⟩
      exact ⟨o, List.mem_append.mpr (Or.inr ho), hmem⟩

theorem mem_braceDeltas_ne_nil_of_str (chunks : List (List Char))
    (hb : ∀ o ∈ braceObjs [] chunks, isStrOrAbsent (objTextValue o) = true) :
    ∀ d ∈ braceDeltas [] chunks, d ≠ [] := by
  intro d hd
  rcases mem_braceDeltas_exists_obj chunks [] d hd with ⟨o, ho, hmem⟩
  exact mem_objEmits_ne_nil_of_str o (hb o ho) d hmem

theorem lineEmission_eq_none_of_parse_none (line : List Char)
    (h : parseJsonL (replaceFirstL dataMarker (jsTrim line)) = none) :
    lineEmission line = none := by
  simp only [lineEmission]
  split
  · rfl
  · split
    · rw [h]
    · rfl

theorem sseLine_eq_self (st : DecSt) (line : List Char) (h : lineEmission line = none) :
    sseLine st line = st := by
  simp [sseLine, h]

theorem startsWithL_append_left (p1 p2 x : List Char)
    (h : startsWithL (p1 ++ p2) x = true) : startsWithL p1 x = true := by
  induction p1 generalizing x with
  | nil => simp [startsWithL]
  | cons p ps ih =>
    cases x with
    | nil => simp [startsWithL] at h
    | cons c cs =>
      simp only [List.cons_append, startsWithL, Bool.and_eq_true] at h ⊢
      exact ⟨h.1, ih cs h.2⟩

theorem startsWithL_self_append (p r : List Char) : startsWithL p (p ++ r) = true := by
  induction p with
  | nil => simp [startsWithL]
  | cons c cs ih => simp [startsWithL, ih]

theorem startsWithL_fence_cons3 (a b d : Char) (l : List Char) :
    startsWithL fence (a :: b :: d :: l) =
      (decide (btick = a) && (decide (btick = b) && decide (btick = d))) := by
  simp [startsWithL, fence]

theorem startsWithL_fence_append_nlFence (cs : List Char)
    (h : containsTriple cs = false) :
    startsWithL fence (cs ++ nlFence) = false := by
  match cs with
  | [] => rfl
  | [a] =>
    show startsWithL fence (a :: '\n' :: btick :: btick :: btick :: []) = false
    rw [startsWithL_fence_cons3]
    rw [show decide (btick = '\n') = false from rfl]
    simp
  | [a, b] =>
    show startsWithL fence (a :: b :: '\n' :: btick :: btick :: btick :: []) = false
    rw [startsWithL_fence_cons3]
    rw [show decide (btick = '\n') = false from rfl]
    simp
  | a :: b :: d :: t =>
    simp only [containsTriple, Bool.or_eq_false_iff] at h
    simp only [List.cons_append]
    rw [startsWithL_fence_cons3]
    rw [startsWithL_fence_cons3] at h
    exact h.1

theorem sfAux_nil (f : Nat) : sfAux f [] = [] := by
  cases f with
  | zero => rfl
  | succ g => rfl

theorem sfAux_append_nlFence (cs : List Char) (fuel : Nat)
    (h : containsTriple cs = false) (hf : cs.length + 1 ≤ fuel) :
    sfAux fuel (cs ++ nlFence) = cs := by
  induction cs generalizing fuel with
  | nil =>
    cases fuel with
    | zero => omega
    | succ f =>
      show sfAux (f + 1) nlFence = []
      simp only [sfAux]
      rw [if_neg (by decide), if_neg (by decide), if_pos (by decide)]
      exact sfAux_nil f
  | cons c cs ih =>
    cases fuel with
    | zero => omega
    | succ f =>
      have htail : containsTriple cs = false := by
        simp only [containsTriple, Bool.or_eq_false_iff] at h
        exact h.2
      have hA : startsWithL fence ((c :: cs) ++ nlFence) = false :=
        startsWithL_fence_append_nlFence (c :: cs) h
      have h1 : ¬ (startsWithL fenceJsonNl ((c :: cs) ++ nlFence) = true) := by
        intro hjn
        rw [startsWithL_append_left fence (['j', 's', 'o', 'n'] ++ ['\n']) _ hjn] at hA
        exact Bool.noConfusion hA
      have h2 : ¬ (startsWithL fenceJson ((c :: cs) ++ nlFence) = true) := by
        intro hjn
        rw [startsWithL_append_left fence ['j', 's', 'o', 'n'] _ hjn] at hA
        exact Bool.noConfusion hA
      have h3 : ¬ (startsWithL nlFence ((c :: cs) ++ nlFence) = true) := by
        intro hnl
        have : startsWithL fence (cs ++ nlFence) = true := by
          simp only [List.cons_append, nlFence, startsWithL, Bool.and_eq_true] at hnl
          exact hnl.2
        rw [startsWithL_fence_append_nlFence cs htail] at this
        exact Bool.noConfusion this
      have h4 : ¬ (startsWithL fence ((c :: cs) ++ nlFence) = true) := by
        rw [hA]
        decide
      simp only [sfAux]
      rw [if_neg h1, if_neg h2, if_neg h3, if_neg h4]
      show c :: sfAux f (cs ++ nlFence) = c :: cs
      rw [ih f htail (by simp only [List.length_cons] at hf; omega)]

theorem sfAux_fenceWrap (j : List Char) (fuel : Nat) (h : containsTriple j = false)
    (hf : j.length + 10 ≤ fuel) :
    sfAux fuel (fenceJsonNl ++ (j ++ nlFence)) = j := by
  cases fuel with
  | zero => omega
  | succ f =>
    simp only [sfAux]
    rw [if_pos (startsWithL_self_append fenceJsonNl (j ++ nlFence))]
    rw [show (8 : Nat) = fenceJsonNl.length from rfl, List.drop_left]
    exact sfAux_append_nlFence j f h (by omega)

theorem stripFences_fenceWrap (j : List Char) (h : containsTriple j = false) :
    stripFences (fenceWrap j) = j := by
  show sfAux ((fenceWrap j).length + 1) (fenceWrap j) = j
  rw [show fenceWrap j = fenceJsonNl ++ (j ++ nlFence) by
    simp [fenceWrap, List.append_assoc]]
  refine sfAux_fenceWrap j _ h ?_
  simp [List.length_append]
  rw [show fenceJsonNl.length = 8 from rfl, show nlFence.length = 4 from rfl]
  omega

/-! The claims. -/

/-- Claim C1: in the line-oriented SSE stream decoder, every sink invocation
receives the full accumulated text so far — for every chunk sequence the list
of sink arguments is exactly the partial concatenations of the decoded deltas
(`accCalls [] (sseDeltas chunks)`), never a bare delta; and on the example
stream `data: {"content":"Hel"}` / `data: {"content":"lo"}` / `data: [DONE]`
the sink receives "Hel" then "Hello" and the call returns "Hello". -/
theorem C1_sse_sink_full_accumulation :
    (∀ chunks : List (List Char),
      (sseRun chunks).calls = accCalls [] (sseDeltas chunks)) ∧
    (sseRun [sseChunk1, sseChunk2, sseChunk3]).calls = ["Hel".toList, "Hello".toList] ∧
    sseReturn [sseChunk1, sseChunk2, sseChunk3] = "Hello".toList :=
  ⟨sseRun_calls, by rfl, by rfl⟩

/-- Claim C2 (code bug, evaluated): the brace-balanced decoder appends each
complete object's text exactly once only when the two-object buffer arrives
in a single chunk (sink "A" then "AB"); when the same buffer is split after
the first object, the source rescans the untrimmed buffer on the second chunk
and re-appends the first object's text — the sink receives "A", "AA", "AAB"
and the call returns "AAB", violating the claim. -/
theorem C2_brace_reprocessing_eval :
    (braceRun [braceChunkA ++ braceChunkB]).calls = ["A".toList, "AB".toList] ∧
    (braceRun [braceChunkA, braceChunkB]).calls =
      ["A".toList, "AA".toList, "AAB".toList] ∧
    (braceRun [braceChunkA, braceChunkB]).acc = "AAB".toList :=
  ⟨by rfl, by rfl, by rfl⟩

/-- Claim C3 (amended): failures propagate unchanged out of
`analyzeFinancialData` and `analyzeReceiptImage` (their catch blocks
rethrow, and nothing is retried — each call is a single application of the
outcome function); `sendChatMessage`, however, catches provider and
transport failures and completes successfully with the substitute apology
text instead of propagating. -/
theorem C3_error_propagation_amended :
    (∀ e, analyzeFinancialDataOutcome (Except.error e) = Except.error e) ∧
    (∀ e, analyzeReceiptImageOutcome (Except.error e) = Except.error e) ∧
    (∀ name e, sendChatMessageOutcome name (Except.error e) =
      Except.ok ("Sorry, I encountered an error connecting to " ++ name ++ ".")) :=
  ⟨fun _ => rfl, fun _ => rfl, fun _ _ => rfl⟩

/-- Claim C3 counterexample: a failed provider call inside `sendChatMessage`
does not propagate to the caller — the operation completes successfully with
substitute text. -/
theorem C3_counterexample :
    sendChatMessageOutcome "DeepSeek" (Except.error "network down") =
      Except.ok "Sorry, I encountered an error connecting to DeepSeek." := by
  rfl

/-- Claim C4 (amended): for each OpenAI-compatible provider whose credential
is empty, `analyzeFinancialData` and `sendChatMessage` throw the
"API Key is missing" error before the transport is invoked; so does
`analyzeReceiptImage` for the vision-capable gpt/qwen — but a deepseek
document request bypasses the gate and goes to the primary provider's
network call, and the primary provider itself is never gated (see the
counterexample). -/
theorem C4_key_gate_amended (env : EnvKeys) (p : ModelProvider)
    (hp : p = .deepseek ∨ p = .gpt ∨ p = .qwen) (hk : providerKey env p = "") :
    analyzeFinancialDataFirstAction env p = .throwKeyMissing (providerDisplayName p ++
      " API Key is missing. Please check your environment variables.") ∧
    sendChatMessageFirstAction env p = .throwKeyMissing (providerDisplayName p ++
      " API Key is missing. Please check your environment variables.") ∧
    (p ≠ .deepseek → analyzeReceiptImageFirstAction env p =
      .throwKeyMissing (providerDisplayName p ++
        " API Key is missing. Please check your environment variables.")) ∧
    analyzeReceiptImageFirstAction env .deepseek = .httpRequest := by
  rcases hp with rfl | rfl | rfl <;>
    simp_all [analyzeFinancialDataFirstAction, sendChatMessageFirstAction,
      analyzeReceiptImageFirstAction, getProviderConfig, callOpenAICompatibleGate,
      providerKey, providerDisplayName]

/-- Claim C4 witness: with only the Gemini key set, a deepseek call fails
fast with the key-missing error before any network request. -/
theorem C4_key_gate_witness :
    providerKey envOnlyGemini .deepseek = "" ∧
    analyzeFinancialDataFirstAction envOnlyGemini .deepseek =
      .throwKeyMissing "DeepSeek API Key is missing. Please check your environment variables." :=
  ⟨rfl, (C4_key_gate_amended envOnlyGemini .deepseek (Or.inl rfl) rfl).1⟩

/-- Claim C4 counterexample: with an empty `API_KEY`, an operation selecting
the primary provider does not raise a credential-missing error before the
network call — the placeholder key is substituted and the request is issued
(the transport is invoked). -/
theorem C4_counterexample :
    envNoGemini.API_KEY = "" ∧
    apiKeyOf envNoGemini = "MISSING_API_KEY" ∧
    sendChatMessageFirstAction envNoGemini .gemini = .httpRequest ∧
    analyzeFinancialDataFirstAction envNoGemini .gemini = .httpRequest ∧
    analyzeReceiptImageFirstAction envNoGemini .gemini = .httpRequest :=
  ⟨rfl, rfl, rfl, rfl, rfl⟩

theorem stringToList_append (a b : String) : (a ++ b).toList = a.toList ++ b.toList := by
  cases a
  cases b
  rfl

/-- Claim C5 (amended): the source classifies every failed (non-2xx) response
identically — a single generic provider error whose message is
`<providerName> API Error: <status> - <body>`, the body always contained
verbatim in the message (so status 500 with body "oops" yields a message
containing "oops"); no status receives a distinct `CredentialRevoked` or
`ModelUnreachable` kind. -/
theorem C5_classifier_amended (name : String) (status : Nat) (body : String) :
    (classifyFailedResponse name status body).kind = ErrorKind.providerError ∧
    (∃ l r, (classifyFailedResponse name status body).message.toList =
      l ++ body.toList ++ r) ∧
    classifyFailedResponse "X" 500 "oops" =
      ⟨ErrorKind.providerError, "X API Error: 500 - oops"⟩ := by
  refine ⟨rfl, ⟨(name ++ " API Error: " ++ toString status ++ " - ").toList, [], ?_⟩, rfl⟩
  show (name ++ " API Error: " ++ toString status ++ " - " ++ body).toList = _
  rw [stringToList_append (name ++ " API Error: " ++ toString status ++ " - ") body]
  rw [List.append_nil]

/-- Claim C5 counterexample: status 403 with a body carrying "API key not
valid" is not classified as `CredentialRevoked` by the source (whose single
unconditional throw gives every failure the generic kind), although the
spec's classifier would be; likewise 404 is not `ModelUnreachable`. -/
theorem C5_counterexample :
    (classifyFailedResponse "DeepSeek" 403
      "\x7b\"error\":\x7b\"message\":\"API key not valid\"\x7d\x7d").kind ≠
      ErrorKind.credentialRevoked ∧
    (classifySpec "DeepSeek" 403 "API key not valid").kind =
      ErrorKind.credentialRevoked ∧
    (classifyFailedResponse "DeepSeek" 404 "x").kind ≠ ErrorKind.modelUnreachable ∧
    (classifySpec "DeepSeek" 404 "x").kind = ErrorKind.modelUnreachable :=
  ⟨by decide, by rfl, by decide, by rfl⟩

/-- Claim C6 (amended): a document-analysis request against a provider
without vision support does not raise a configuration error before the
network call; instead deepseek is silently redirected to the primary
provider's network call with the explanatory note prefixed to the result,
and the primary provider handles its own requests directly (empty note). -/
theorem C6_vision_fallback_amended (env : EnvKeys) :
    analyzeReceiptImageRoute env .deepseek = .geminiFallback deepseekNote ∧
    analyzeReceiptImageRoute env .gemini = .geminiFallback "" :=
  ⟨rfl, rfl⟩

/-- Claim C6 counterexample: a deepseek document request (deepseek lacks
vision support) is routed to the primary provider's transport — a network
call, with the note prepended — and in particular is not the key-missing
error raised before a network call. -/
theorem C6_counterexample :
    analyzeReceiptImageRoute envAll .deepseek = .geminiFallback deepseekNote ∧
    ReceiptRoute.geminiFallback deepseekNote ≠
      ReceiptRoute.keyMissing "DeepSeek API Key is missing. Please check your environment variables." :=
  ⟨rfl, fun h => ReceiptRoute.noConfusion h⟩

/-- Claim C7: an SSE line whose payload is not parseable JSON is skipped
without aborting the stream — deleting such a line from the line sequence
does not change the decoder's final state, so every subsequent valid line
still extends the accumulator, still reaches the sink, and the call
completes normally. -/
theorem C7_malformed_line_skipped (pre post : List (List Char)) (bad : List Char)
    (h : parseJsonL (replaceFirstL dataMarker (jsTrim bad)) = none) :
    sseRunLines (pre ++ bad :: post) = sseRunLines (pre ++ post) := by
  unfold sseRunLines
  rw [List.foldl_append, List.foldl_append, List.foldl_cons,
    sseLine_eq_self _ _ (lineEmission_eq_none_of_parse_none bad h)]

/-- Claim C7 witness: a malformed data line between the two valid example
lines is skipped, and decoding of the surrounding stream is unchanged. -/
theorem C7_malformed_line_witness :
    parseJsonL (replaceFirstL dataMarker (jsTrim sseBadLine)) = none ∧
    sseRunLines [sseLineHel, sseBadLine, sseLineLo] =
      sseRunLines [sseLineHel, sseLineLo] :=
  ⟨by rfl, C7_malformed_line_skipped [sseLineHel] [sseLineLo] sseBadLine (by rfl)⟩

/-- Claim C8 (amended): at end of stream each decoder returns its final
accumulated text — the concatenation of all decoded deltas — but only the
brace-balanced mode substitutes a single space when nothing was decoded; the
line-oriented SSE mode returns the accumulator as is, i.e. the empty string
when nothing was decoded. -/
theorem C8_end_of_stream_amended (chunks : List (List Char)) :
    sseReturn chunks = (sseDeltas chunks).flatten ∧
    (braceRun chunks).acc = (braceDeltas [] chunks).flatten ∧
    braceReturn chunks =
      (if (braceDeltas [] chunks).flatten = ([] : List Char) then [' ']
       else (braceDeltas [] chunks).flatten) := by
  refine ⟨sseRun_acc chunks, braceRun_acc chunks, ?_⟩
  rw [show braceReturn chunks =
    (if (braceRun chunks).acc = [] then [' '] else (braceRun chunks).acc) from rfl]
  rw [braceRun_acc chunks]

/-- Claim C8 counterexample: a stream from which no text was decoded makes
the SSE mode return the empty string, not the single space the claim
requires of both modes (the brace mode does return the space). -/
theorem C8_counterexample :
    sseReturn [sseChunk3] = [] ∧
    sseReturn [sseChunk3] ≠ [' '] ∧
    braceReturn [] = [' '] :=
  ⟨by rfl, by decide, by rfl⟩

/-- Claim C9 (amended): for every JSON text in which the fence string
`` ``` `` does not occur, parsing it wrapped in a markdown code fence yields
the same value as parsing it bare (the cleanup strips exactly the wrapper);
and feeding the fenced example response through `analyzeFinancialData`'s
parsing step yields the object with summary "s", empty risks and empty
keyMetrics, the fence stripped. -/
theorem C9_fence_roundtrip_amended :
    (∀ j : List Char, containsTriple j = false →
      parseJsonL (stripFences (fenceWrap j)) = parseJsonL j) ∧
    analyzeFinancialDataOutcome (Except.ok fencedAuditResponse) =
      Except.ok (Json.obj [("summary".toList, Json.str ("s".toList)),
                           ("risks".toList, Json.arr []),
                           ("keyMetrics".toList, Json.arr [])]) :=
  ⟨fun j hj => by rw [stripFences_fenceWrap j hj], by rfl⟩

/-- Claim C9 witness: the round-trip holds at the fence-free JSON text
`null`. -/
theorem C9_fence_roundtrip_witness :
    containsTriple ("null".toList) = false ∧
    parseJsonL (stripFences (fenceWrap ("null".toList))) =
      parseJsonL ("null".toList) :=
  ⟨by decide, C9_fence_roundtrip_amended.1 ("null".toList) (by decide)⟩

/-- Claim C9 counterexample: the cleanup regex also deletes fence strings
inside the JSON text, so the round-trip fails for the JSON string literal
`"```"`: bare it parses to the three-backtick string, fenced it parses to
the empty string. -/
theorem C9_counterexample :
    parseJsonL ('"' :: fence ++ ['"']) = some (Json.str fence) ∧
    parseJsonL (stripFences (fenceWrap ('"' :: fence ++ ['"']))) =
      some (Json.str []) ∧
    Json.str fence ≠ Json.str [] := by
  refine ⟨by rfl, by rfl, ?_⟩
  intro h
  injection h with h2
  exact absurd h2 (by decide)

/-- Claim C10 (amended): in both streaming modes, whenever every value the
stream exposes at the delta/text path is absent or a string — the only
shapes the providers' streams carry there — the sink is never invoked with
the empty string and each sink argument strictly extends its predecessor
(each previously delivered text a proper prefix of the next).  Without that
restriction the invariant fails: the source's JS truthiness guard lets a
truthy non-string through, appending its — possibly empty — string coercion
and invoking the sink with an unchanged accumulator (see the
counterexample). -/
theorem C10_sink_monotone_amended (chunks : List (List Char))
    (hs : ∀ line ∈ (chunks.map splitNl).flatten,
      isStrOrAbsent (lineContentValue line) = true)
    (hb : ∀ o ∈ braceObjs [] chunks, isStrOrAbsent (objTextValue o) = true) :
    (StrictChain [] (sseRun chunks).calls ∧
      ∀ c, c ∈ (sseRun chunks).calls → c ≠ []) ∧
    (StrictChain [] (braceRun chunks).calls ∧
      ∀ c, c ∈ (braceRun chunks).calls → c ≠ []) := by
  rw [sseRun_calls, braceRun_calls]
  exact ⟨⟨strictChain_accCalls _ _ (mem_sseDeltas_ne_nil_of_str chunks hs),
          mem_accCalls_ne_nil _ _ (mem_sseDeltas_ne_nil_of_str chunks hs)⟩,
         ⟨strictChain_accCalls _ _ (mem_braceDeltas_ne_nil_of_str chunks hb),
          mem_accCalls_ne_nil _ _ (mem_braceDeltas_ne_nil_of_str chunks hb)⟩⟩

/-- Claim C10 witness: the example stream satisfies both path-shape
hypotheses, and the amended theorem yields the strict sink chains for both
decoders on it. -/
theorem C10_sink_monotone_witness :
    (∀ line ∈ (([sseChunk1, sseChunk2, sseChunk3].map splitNl).flatten),
      isStrOrAbsent (lineContentValue line) = true) ∧
    (∀ o ∈ braceObjs [] [sseChunk1, sseChunk2, sseChunk3],
      isStrOrAbsent (objTextValue o) = true) ∧
    StrictChain [] (sseRun [sseChunk1, sseChunk2, sseChunk3]).calls ∧
    StrictChain [] (braceRun [sseChunk1, sseChunk2, sseChunk3]).calls :=
  ⟨by decide, by decide,
   (C10_sink_monotone_amended [sseChunk1, sseChunk2, sseChunk3]
     (by decide) (by decide)).1.1,
   (C10_sink_monotone_amended [sseChunk1, sseChunk2, sseChunk3]
     (by decide) (by decide)).2.1⟩

/-- Claim C10 counterexample: on the well-formed frame whose delta/text
value is the truthy empty array, both decoders enter the append branch with
the empty coercion and invoke the sink with the empty string — the sink
argument sequence `[""]` is not a strict chain over the empty base, refuting
the claimed monotonicity. -/
theorem C10_counterexample :
    (sseRun [sseTruthyEmptyChunk]).calls = [([] : List Char)] ∧
    (braceRun [braceTruthyEmptyChunk]).calls = [([] : List Char)] ∧
    ¬ StrictChain [] [([] : List Char)] := by
  refine ⟨by rfl, by rfl, ?_⟩
  rintro ⟨⟨t, ht, he⟩, -⟩
  rw [List.nil_append] at he
  exact ht he.symm
